import Mathlib

/-!
Verification development for the Site Kit client-side data-store layer.

The repository's JavaScript data stores (a Flux-like state container) are
shallowly embedded here:

* JS objects holding settings / report options are association lists
  `List (String × JSVal)` with first-binding-wins lookup; the JS spread
  merge `\x7b ...old, ...new \x7d` is modelled by prepending the overriding
  bindings (pointwise identical lookup semantics).
* The settings store (`createSettingsStore`) is embedded as a state record
  plus a reducer over an action type; the implementation file is absent
  from the sources (only its test suite is present), so those definitions
  are modelled from the specification and checked against the behaviours
  pinned by the test suite.
* The Analytics report store (selector, reducer callback, resolver and
  `validateParams`) is translated from
  `assets/js/googlesitekit/datastore/user/disconnect.js`.
* Asynchronous fetches are embedded by passing the network outcome
  (`Except ErrObj response`) explicitly to the completion function.
-/

namespace SiteKit

/-- JSON-serializable primitive value stored in a settings bag or in report
options. Enough structure to distinguish defined falsy values (`false`, `0`,
`""`, `null`) from `undefined`, which is modelled as `Option.none` one level
up. -/
inductive JSVal where
  | str : String → JSVal
  | bool : Bool → JSVal
  | num : Int → JSVal
  | null : JSVal
deriving DecidableEq, Repr

/-- Association list standing for a JS object with `String` keys. The first
binding for a key wins on lookup, so prepending bindings overrides. -/
abbrev AList (β : Type) := List (String × β)

namespace AList

/-- Lookup of a key in a JS object: the first binding wins. -/
def get {β : Type} : AList β → String → Option β
  | [], _ => none
  | p :: t, k => if p.1 = k then some p.2 else get t k

/-- Write of a single key, as in the JS computed-property spread
`\x7b ...m, [k]: v \x7d`: the new binding shadows any previous one. -/
def set {β : Type} (m : AList β) (k : String) (v : β) : AList β :=
  (k, v) :: m

/-- Removal of a key (used when a successful fetch clears a stored error). -/
def erase {β : Type} (m : AList β) (k : String) : AList β :=
  m.filter (fun p => p.1 ≠ k)

end AList

/-- A settings bag: a JS object mapping setting slugs to values. -/
abbrev SMap := AList JSVal

/-- JS spread merge `\x7b ...old, ...new \x7d`: values of `new` win over
values of `old` on every conflicting key. -/
def SMap.override (old new : SMap) : SMap := new ++ old

/-- WordPress-style error object as produced by a failed REST request:
`\x7b code, message, data: \x7b status \x7d \x7d`. -/
structure ErrObj where
  code : String
  message : String
  status : Int
deriving DecidableEq, Repr

/-! ### Canonical serialization of JS objects

`stringifyObject` itself is not among the provided sources (only its call
sites in `disconnect.js` are), so it is modelled from the spec. -/

/-- Serialization of a primitive value, tagged by kind. -/
def serializeJSVal : JSVal → String
  | .str s => "s:" ++ s
  | .bool b => if b then "b:true" else "b:false"
  | .num n => "n:" ++ toString n
  | .null => "null"

/-- Serialization of a single key/value binding. -/
def serializePair (p : String × JSVal) : String :=
  p.1 ++ "=" ++ serializeJSVal p.2 ++ ";"

/-- Lexicographic less-or-equal on character lists, used to sort the
serialized bindings of an object into a canonical order. -/
def charListLeb : List Char → List Char → Bool
  | [], _ => true
  | _ :: _, [] => false
  | a :: as, b :: bs => if a = b then charListLeb as bs else decide (a < b)

/-- Lexicographic less-or-equal on strings via their character data. -/
def strLeb (a b : String) : Bool :=
  charListLeb a.data b.data

/-- The sort order used for canonicalization. -/
def strLe (a b : String) : Prop := strLeb a b = true

instance : DecidableRel strLe := fun a b => by
  unfold strLe; infer_instance

/-- Modelled from the spec: `stringifyObject` (absent from the provided
sources) produces a "canonical serialization" of a JS object, a
"deep-equality-stable string, not ... object identity". Bindings are
serialized individually and sorted, so the resulting key does not depend on
the insertion order of the object's properties. -/
def stringifyObject (o : AList JSVal) : String :=
  String.join (List.insertionSort strLe (o.map serializePair))

/-! ### Settings store

The implementation file `create-settings-store.js` is absent from the
provided sources; its test suite is present. Per the spec, the store holds a
working copy (`settings`) and a last-known server copy (`savedSettings`),
each `undefined` (here `none`) until first populated. -/

/-- Modelled from the spec: the state shape of a store produced by
`createSettingsStore` (implementation absent from the provided sources) —
a working copy, a saved copy, per-operation `isFetching` flags and an error
bag keyed by operation name plus serialized arguments. -/
structure SettingsState where
  settings : Option SMap
  savedSettings : Option SMap
  isFetchingGetSettings : Bool
  isFetchingSaveSettings : Bool
  errors : AList ErrObj
deriving DecidableEq, Repr

/-- Initial state: neither copy has been populated, nothing in flight. -/
def initialSettingsState : SettingsState :=
  ⟨none, none, false, false, []⟩

/-- Modelled from the spec: the synchronous actions of
`createSettingsStore` (implementation absent from the provided sources). -/
inductive SettingsAction where
  | setSettings (values : SMap)
  | setSetting (slug : String) (value : JSVal)
  | receiveGetSettings (response : SMap)
  | receiveSaveSettings (response : SMap)
  | rollbackSettings
deriving DecidableEq, Repr

/-- Client-side edit actions: `setSettings` and the generated per-field
setters. These touch only the working copy, never the saved copy. -/
def SettingsAction.isEdit : SettingsAction → Bool
  | .setSettings _ => true
  | .setSetting _ _ => true
  | _ => false

/-- Modelled from the spec: the reducer of `createSettingsStore`
(implementation absent from the provided sources).
`setSettings` "merges `values` into the working copy"; `receiveGetSettings`
merges server data with "already-modified client fields take precedence";
`receiveSaveSettings` "replaces working copy and saved copy with the
server's authoritative response"; `rollbackSettings` "discards the working
copy, restoring it to the last saved copy". -/
def settingsReducer (s : SettingsState) : SettingsAction → SettingsState
  | .setSettings values =>
    { s with settings := some (SMap.override (s.settings.getD []) values) }
  | .setSetting slug value =>
    { s with settings := some (SMap.override (s.settings.getD []) [(slug, value)]) }
  | .receiveGetSettings response =>
    { s with
        savedSettings := some response,
        settings := some (SMap.override response (s.settings.getD [])) }
  | .receiveSaveSettings response =>
    { s with savedSettings := some response, settings := some response }
  | .rollbackSettings =>
    { s with settings := s.savedSettings }

/-- Folding a list of dispatched actions over the reducer; dispatches from a
single caller are applied to state in sequence. -/
def applyActions (s : SettingsState) (acts : List SettingsAction) :
    SettingsState :=
  acts.foldl settingsReducer s

/-- Modelled from the spec: the `setSettings` action creator "requires
`values` to be a non-null object, else fails fast" (synchronously, before
any dispatch). An absent, `null` or non-object argument is modelled as
`none`; the error message is the one asserted by the test suite. -/
def setSettingsCreator (values : Option SMap) :
    Except String SettingsAction :=
  match values with
  | some v => .ok (.setSettings v)
  | none => .error "values is required."

/-- Modelled from the spec: the generated per-field setter `set<X>` for a
configured setting slug, "requiring a defined value, including explicitly
falsy ones — only `undefined` is rejected". `undefined` is modelled as
`none`. -/
def setSettingCreator (slug : String) (value : Option JSVal) :
    Except String SettingsAction :=
  match value with
  | some v => .ok (.setSetting slug v)
  | none =>
    .error ("value is required for calls to set" ++ slug.capitalize ++ "().")

/-- Modelled from the spec: the `receiveGetSettings` action creator requires
the `response` argument. -/
def receiveGetSettingsCreator (response : Option SMap) :
    Except String SettingsAction :=
  match response with
  | some r => .ok (.receiveGetSettings r)
  | none => .error "response is required."

/-- Modelled from the spec: the `receiveSaveSettings` action creator
requires the `response` argument. -/
def receiveSaveSettingsCreator (response : Option SMap) :
    Except String SettingsAction :=
  match response with
  | some r => .ok (.receiveSaveSettings r)
  | none => .error "response is required."

/-- Selector `getSettings`: returns the working copy (`undefined`, i.e.
`none`, until populated). -/
def getSettingsSel (s : SettingsState) : Option SMap := s.settings

/-- Modelled from the spec: the generated per-field getter `get<X>` reads
the working copy. -/
def getSetting (s : SettingsState) (slug : String) : Option JSVal :=
  AList.get (s.settings.getD []) slug

/-- Generic error lookup "keyed by operation name and its arguments"
(`getErrorForAction` in the test suites). -/
def getErrorForAction (s : SettingsState) (op argsKey : String) :
    Option ErrObj :=
  AList.get s.errors (op ++ ":" ++ argsKey)

/-! ### Fetch lifecycle

`create-fetch-store.js` is absent from the provided sources; per spec §4.1
a fetch produces three coordinated transitions — start (sets the
`isFetching` flag), receive data (stores result, clears the flag, clears
the error) and catch error (stores the error, clears the flag). A completed
fetch is embedded as a function of the network outcome. -/

/-- Modelled from the spec: a completed `fetchGetSettings` operation of the
fetch-lifecycle wrapper (implementation absent from the provided sources).
On success the response is merged via `receiveGetSettings` and the stored
error for this operation key is cleared; on failure the error "is stored
and is readable via a generic error-for-this-operation-and-arguments
lookup" — it is captured as data, never thrown. -/
def fetchGetSettingsOutcome (s : SettingsState) (argsKey : String)
    (net : Except ErrObj SMap) : SettingsState :=
  let s1 := { s with isFetchingGetSettings := true }
  match net with
  | .ok response =>
    { settingsReducer s1 (.receiveGetSettings response) with
        isFetchingGetSettings := false,
        errors := AList.erase s1.errors ("getSettings:" ++ argsKey) }
  | .error e =>
    { s1 with
        isFetchingGetSettings := false,
        errors := AList.set s1.errors ("getSettings:" ++ argsKey) e }

/-- Modelled from the spec: a completed `fetchSaveSettings` operation of the
fetch-lifecycle wrapper (implementation absent from the provided sources).
On success the server response is applied via `receiveSaveSettings`; on
failure the error is stored against the `saveSettings` operation key and
the working copy is not touched. -/
def fetchSaveSettingsOutcome (s : SettingsState) (argsKey : String)
    (net : Except ErrObj SMap) : SettingsState :=
  let s1 := { s with isFetchingSaveSettings := true }
  match net with
  | .ok response =>
    { settingsReducer s1 (.receiveSaveSettings response) with
        isFetchingSaveSettings := false,
        errors := AList.erase s1.errors ("saveSettings:" ++ argsKey) }
  | .error e =>
    { s1 with
        isFetchingSaveSettings := false,
        errors := AList.set s1.errors ("saveSettings:" ++ argsKey) e }

/-- Modelled from the spec: the `saveSettings` action "sends the full
working copy to the server; on success, replaces working copy and saved
copy with the server's authoritative response ...; on failure surfaces the
error against the `saveSettings` operation key". The network outcome is
passed in explicitly. -/
def saveSettings (s : SettingsState) (net : Except ErrObj SMap) :
    SettingsState :=
  fetchSaveSettingsOutcome s (stringifyObject (s.settings.getD [])) net

/-! ### Report store (translated from `disconnect.js`)

The Analytics report store keeps `reports`, a map from the canonical
serialization of the request options to the last successful response. -/

/-- The payload cached for a report key: a JS object/array (report payloads
are JSON objects, which are always truthy in JS). -/
abbrev Report := AList JSVal

/-- `baseInitialState` of the Analytics report store (`disconnect.js`):
`reports` starts as the empty object. -/
def initialReportState : AList Report := []

/-- `baseSelectors.getReport` (`disconnect.js` lines 272-276): a pure lookup
of `reports[stringifyObject(options)]`; `undefined` (`none`) if that key has
not been fetched. -/
def getReport (reports : AList Report) (options : AList JSVal) :
    Option Report :=
  AList.get reports (stringifyObject options)

/-- `fetchGetReportStore.reducerCallback` (`disconnect.js` lines 147-155):
stores a successful response under the serialized options key, leaving all
other keys untouched. -/
def receiveGetReportReducer (reports : AList Report) (report : Report)
    (options : AList JSVal) : AList Report :=
  AList.set reports (stringifyObject options) report

/-! ### Resolver machinery

A selector read triggers its resolver at most once per serialized argument
key (the registry records that resolution has started); the resolver bodies
then skip the network call when a value is already in local state
(`disconnect.js` lines 213-223 for `getReport`; the spec describes the same
shape for `getSettings`). The registry-side once-per-key bookkeeping lives
in `@wordpress/data`, outside this repository, and is modelled from the
spec's description of resolver semantics. -/

/-- Modelled from the spec: resolver-side state for one store — the set of
serialized keys whose resolver has already started, the local cache those
resolvers consult, and a log of the network fetches actually initiated
(newest first), kept to state fetch-count properties. -/
structure ResolverState where
  started : List String
  cache : AList Report
  fetchLog : List String
deriving DecidableEq, Repr

/-- Events visible to the resolver machinery: a selector read for a
serialized key, and the completion of a fetch storing a response for its
key. -/
inductive ResolverEvent where
  | read (key : String)
  | resolve (key : String) (response : Report)
deriving DecidableEq, Repr

/-- Modelled from the spec plus the resolver bodies in `disconnect.js`: a
selector read for `key` is a no-op if resolution already started for that
key; otherwise it marks resolution started and, unless a value for the key
already exists in the local cache (the `existingReport` check of the
`getReport` resolver, and the corresponding check of the `getSettings`
resolver), initiates exactly one network fetch. Completion of a fetch
stores the response under its key. -/
def resolverStep (s : ResolverState) : ResolverEvent → ResolverState
  | .read key =>
    if key ∈ s.started then s
    else
      let s1 := { s with started := key :: s.started }
      match AList.get s1.cache key with
      | some _ => s1
      | none => { s1 with fetchLog := key :: s1.fetchLog }
  | .resolve key response =>
    { s with cache := AList.set s.cache key response }

/-- Running the resolver machinery over a sequence of events. -/
def runResolver (s : ResolverState) (evs : List ResolverEvent) :
    ResolverState :=
  evs.foldl resolverStep s

/-- Number of network fetches initiated for a given serialized key. -/
def fetchCount (s : ResolverState) (key : String) : Nat :=
  s.fetchLog.count key

/-- A fresh store: no resolution has started and nothing has been fetched;
the cache may already hold client-side values. -/
def initialResolverState (cache0 : AList Report) : ResolverState :=
  ⟨[], cache0, []⟩

/-! ### Report request validation (translated from `disconnect.js`)

`validateParams` of the Analytics `fetchGetReportStore` is in the sources;
the validator helpers it calls (`isValidDateRange`, `normalizeReportOptions`,
`isValidMetrics`, `isValidDimensions`, `isValidDimensionFilters`,
`isValidOrders`) are not, so the embedding is parameterized by them. -/

/-- Result of `normalizeReportOptions`: the normalized metrics list plus the
optional normalized dimensions / dimension filters / orderby (absent fields
modelled as `none`). -/
structure NormalizedReportOptions (M D F O : Type) where
  metrics : List M
  dimensions : Option D
  dimensionFilters : Option F
  orderby : Option O

/-- The validator helpers used by `validateParams`, absent from the provided
sources and therefore kept abstract. -/
structure ReportValidators (Opts M D F O : Type) where
  isValidDateRange : Opts → Bool
  normalizeReportOptions : Opts → NormalizedReportOptions M D F O
  isValidMetrics : List M → Bool
  isValidDimensions : D → Bool
  isValidDimensionFilters : F → Bool
  isValidOrders : O → Bool

/-- Guarded validation of an optional field, as in the JS
`if (field) \x7b invariant(isValid(field), msg); \x7d` blocks of
`validateParams`: an absent field is skipped, a present invalid field
raises the invariant violation, a present valid field falls through to the
remaining checks. -/
def checkOptional {α : Type} (x : Option α) (valid : α → Bool)
    (msg : String) (rest : Except String Unit) : Except String Unit :=
  match x with
  | some v => if ¬ valid v then .error msg else rest
  | none => rest

/-- `fetchGetReportStore.validateParams` (`disconnect.js` lines 159-205):
a non-object argument, a missing/invalid date range, an empty normalized
metrics list, invalid metrics, or present-but-invalid dimensions /
dimension filters / orderby each raise an invariant violation with the
corresponding message; otherwise validation passes. A non-plain-object
`options` argument is modelled as `none`. -/
def validateParams {Opts M D F O : Type}
    (V : ReportValidators Opts M D F O) (options : Option Opts) :
    Except String Unit :=
  match options with
  | none => .error "Options for Analytics report must be an object."
  | some o =>
    if ¬ V.isValidDateRange o then
      .error "Either date range or start/end dates must be provided for Analytics report."
    else
      let n := V.normalizeReportOptions o
      if n.metrics.length = 0 then
        .error "Requests must specify at least one metric for an Analytics report."
      else if ¬ V.isValidMetrics n.metrics then
        .error "Metrics for an Analytics report must be either a string, an array of strings, an object, an array of objects or a mix of strings and objects. If an object is used, it must have \"expression\" and \"alias\" properties."
      else
        checkOptional n.dimensions V.isValidDimensions
          "Dimensions for an Analytics report must be either a string, an array of strings, an object, an array of objects or a mix of strings and objects. If an object is used, it must have \"name\" property."
          (checkOptional n.dimensionFilters V.isValidDimensionFilters
            "Dimension filters must be a map of dimension names as keys and dimension values as values."
            (checkOptional n.orderby V.isValidOrders
              "Orders for an Analytics report must be either an object or an array of objects where each object should have \"fieldName\" and \"sortOrder\" properties."
              (.ok ())))

/-- Modelled from the spec: the fetch action creator produced by
`create-fetch-store` (absent from the provided sources) runs
`validateParams` synchronously; a precondition violation fails "immediately
and synchronously before any network activity" — the state is returned
untouched and no request is issued. On success the request carries the
normalized options (`controlCallback` in `disconnect.js`). The result is
(state, request issued, error raised). -/
def fetchGetReportAction {Opts M D F O : Type}
    (V : ReportValidators Opts M D F O) (reports : AList Report)
    (options : Option Opts) :
    AList Report × Option (NormalizedReportOptions M D F O) × Option String :=
  match validateParams V options, options with
  | .error msg, _ => (reports, none, some msg)
  | .ok _, some o => (reports, some (V.normalizeReportOptions o), none)
  | .ok _, none => (reports, none, none)

/-- Concrete instantiation of the abstract validator helpers, used to
exercise the validation pipeline on concrete inputs. -/
def sampleValidators : ReportValidators String String String String String where
  isValidDateRange := fun _ => true
  normalizeReportOptions := fun _ => ⟨["ga:users"], none, none, none⟩
  isValidMetrics := fun _ => true
  isValidDimensions := fun _ => true
  isValidDimensionFilters := fun _ => true
  isValidOrders := fun _ => true

/-! ## Theorems

General lemmas about the embedded building blocks first, then one theorem
per specification claim. -/

theorem AList.get_append {β : Type} (a b : AList β) (k : String) :
    AList.get (a ++ b) k = (AList.get a k).or (AList.get b k) := by
  induction a with
  | nil => simp [AList.get]
  | cons p t ih =>
    by_cases h : p.1 = k
    · simp [AList.get, h]
    · simp [AList.get, h, ih]

theorem AList.get_set_self {β : Type} (m : AList β) (k : String) (v : β) :
    AList.get (AList.set m k v) k = some v := by
  simp [AList.get, AList.set]

theorem AList.get_set_ne {β : Type} (m : AList β) (k k' : String) (v : β)
    (h : k' ≠ k) : AList.get (AList.set m k v) k' = AList.get m k' := by
  simp [AList.get, AList.set, h.symm]

theorem SMap.get_override (old new : SMap) (k : String) :
    AList.get (SMap.override old new) k =
      (AList.get new k).or (AList.get old k) :=
  AList.get_append new old k

theorem charListLeb_total (l m : List Char) :
    charListLeb l m = true ∨ charListLeb m l = true := by
  induction l generalizing m with
  | nil => exact Or.inl rfl
  | cons a as ih =>
    cases m with
    | nil => exact Or.inr rfl
    | cons b bs =>
      by_cases hab : a = b
      · subst hab
        simpa only [charListLeb, if_pos] using ih bs
      · rcases lt_or_gt_of_ne hab with h | h
        · left; simp [charListLeb, hab, h]
        · right; simp [charListLeb, Ne.symm hab, h]

theorem charListLeb_trans : ∀ {l m n : List Char},
    charListLeb l m = true → charListLeb m n = true →
      charListLeb l n = true := by
  intro l
  induction l with
  | nil => intro m n _ _; rfl
  | cons a as ih =>
    intro m n h1 h2
    cases m with
    | nil => simp [charListLeb] at h1
    | cons b bs =>
      cases n with
      | nil => simp [charListLeb] at h2
      | cons c cs =>
        by_cases hab : a = b <;> by_cases hbc : b = c
        · subst hab; subst hbc
          simp only [charListLeb, if_pos] at h1 h2 ⊢
          exact ih h1 h2
        · subst hab
          simp only [charListLeb, if_pos, if_neg hbc,
            decide_eq_true_eq] at h2 ⊢
          simp [if_neg hbc, decide_eq_true_eq, ne_of_lt h2, h2]
        · subst hbc
          simp only [charListLeb, if_neg hab, decide_eq_true_eq] at h1
          simp [charListLeb, if_neg hab, decide_eq_true_eq, h1]
        · simp only [charListLeb, if_neg hab, if_neg hbc,
            decide_eq_true_eq] at h1 h2
          have hac : a < c := lt_trans h1 h2
          simp [charListLeb, ne_of_lt hac, hac]

theorem charListLeb_antisymm : ∀ {l m : List Char},
    charListLeb l m = true → charListLeb m l = true → l = m := by
  intro l
  induction l with
  | nil =>
    intro m h1 h2
    cases m with
    | nil => rfl
    | cons b bs => simp [charListLeb] at h2
  | cons a as ih =>
    intro m h1 h2
    cases m with
    | nil => simp [charListLeb] at h1
    | cons b bs =>
      by_cases hab : a = b
      · subst hab
        simp only [charListLeb, if_pos] at h1 h2
        exact congrArg _ (ih h1 h2)
      · simp only [charListLeb, if_neg hab, if_neg (Ne.symm hab),
          decide_eq_true_eq] at h1 h2
        exact absurd h2 (lt_asymm h1)

theorem strLe_total (a b : String) : strLe a b ∨ strLe b a :=
  charListLeb_total a.data b.data

theorem strLe_trans {a b c : String} (h1 : strLe a b) (h2 : strLe b c) :
    strLe a c :=
  charListLeb_trans h1 h2

theorem strLe_antisymm {a b : String} (h1 : strLe a b) (h2 : strLe b a) :
    a = b := by
  cases a with
  | mk da =>
    cases b with
    | mk db => exact congrArg String.mk (charListLeb_antisymm h1 h2)

/-- Serialization is insensitive to the insertion order of an object's
bindings: deep-equal objects (same multiset of key/value bindings) share
one canonical cache key. -/
theorem stringifyObject_perm (o₁ o₂ : AList JSVal) (h : o₁.Perm o₂) :
    stringifyObject o₁ = stringifyObject o₂ := by
  haveI htot : IsTotal String strLe := ⟨strLe_total⟩
  haveI htrans : IsTrans String strLe := ⟨fun _ _ _ => strLe_trans⟩
  haveI hanti : IsAntisymm String strLe := ⟨fun _ _ => strLe_antisymm⟩
  unfold stringifyObject
  congr 1
  apply List.eq_of_perm_of_sorted (r := strLe)
  · exact ((List.perm_insertionSort _ _).trans (h.map serializePair)).trans
      (List.perm_insertionSort _ _).symm
  · exact List.sorted_insertionSort _ _
  · exact List.sorted_insertionSort _ _

/-- Edit actions do not touch the saved copy. -/
theorem savedSettings_reduce_isEdit (s : SettingsState) (a : SettingsAction)
    (h : a.isEdit = true) :
    (settingsReducer s a).savedSettings = s.savedSettings := by
  cases a <;> simp_all [SettingsAction.isEdit, settingsReducer]

/-- A sequence of edit actions does not touch the saved copy. -/
theorem savedSettings_applyActions (s : SettingsState)
    (edits : List SettingsAction) (h : ∀ a ∈ edits, a.isEdit = true) :
    (applyActions s edits).savedSettings = s.savedSettings := by
  induction edits generalizing s with
  | nil => rfl
  | cons a t ih =>
    have ha : a.isEdit = true := h a (List.mem_cons_self a t)
    have ht : ∀ b ∈ t, b.isEdit = true := fun b hb => h b (List.mem_cons_of_mem a hb)
    calc (applyActions (settingsReducer s a) t).savedSettings
        = (settingsReducer s a).savedSettings := ih (settingsReducer s a) ht
      _ = s.savedSettings := savedSettings_reduce_isEdit s a ha

/-- One step never removes entries from the fetch log. -/
theorem fetchCount_step_mono (s : ResolverState) (ev : ResolverEvent)
    (key : String) :
    fetchCount s key ≤ fetchCount (resolverStep s ev) key := by
  cases ev with
  | resolve k r => exact le_refl _
  | read k =>
    by_cases hks : k ∈ s.started
    · simp [resolverStep, hks]
    · simp only [resolverStep, if_neg hks]
      cases hc : AList.get s.cache k with
      | some v => simp [fetchCount]
      | none =>
        simp only [fetchCount]
        rw [List.count_cons]
        split <;> omega

/-- The fetch log never shrinks along a run. -/
theorem fetchCount_run_mono (s : ResolverState) (evs : List ResolverEvent)
    (key : String) :
    fetchCount s key ≤ fetchCount (runResolver s evs) key := by
  induction evs generalizing s with
  | nil => exact le_refl _
  | cons e t ih =>
    exact le_trans (fetchCount_step_mono s e key) (ih (resolverStep s e))

/-- Inductive bound: a key that has not started resolution has no fetches;
a key that has, has at most one. One step preserves the bound. -/
theorem resolver_bound_step (s : ResolverState) (ev : ResolverEvent)
    (key : String)
    (h : fetchCount s key ≤ if key ∈ s.started then 1 else 0) :
    fetchCount (resolverStep s ev) key ≤
      if key ∈ (resolverStep s ev).started then 1 else 0 := by
  cases ev with
  | resolve k r => simpa [resolverStep, fetchCount] using h
  | read k =>
    by_cases hks : k ∈ s.started
    · simpa [resolverStep, hks] using h
    · simp only [resolverStep, if_neg hks]
      cases hc : AList.get s.cache k with
      | some v =>
        simp only [fetchCount, List.mem_cons]
        by_cases hkey : key ∈ s.started
        · simpa [hkey] using h
        · have h0 : s.fetchLog.count key = 0 :=
            Nat.le_zero.mp (by simpa [fetchCount, hkey] using h)
          simp [h0]
      | none =>
        by_cases hkk : key = k
        · subst hkk
          have h0 : s.fetchLog.count key = 0 :=
            Nat.le_zero.mp (by simpa [fetchCount, hks] using h)
          simp [fetchCount, List.count_cons_self, h0, List.mem_cons]
        · have hcnt : (k :: s.fetchLog).count key = s.fetchLog.count key :=
            List.count_cons_of_ne hkk _
          simp only [fetchCount, hcnt, List.mem_cons]
          by_cases hkey : key ∈ s.started
          · simpa [hkey] using h
          · have h0 : s.fetchLog.count key = 0 :=
            Nat.le_zero.mp (by simpa [fetchCount, hkey] using h)
            simp [h0]

/-- The fetch bound holds along any run. -/
theorem resolver_bound_run (s : ResolverState) (evs : List ResolverEvent)
    (key : String)
    (h : fetchCount s key ≤ if key ∈ s.started then 1 else 0) :
    fetchCount (runResolver s evs) key ≤
      if key ∈ (runResolver s evs).started then 1 else 0 := by
  induction evs generalizing s with
  | nil => exact h
  | cons e t ih => exact ih (resolverStep s e) (resolver_bound_step s e key h)

/-- Inductive invariant for an already-populated key: its cache entry stays
populated and it never accrues a fetch. One step preserves this. -/
theorem resolver_cached_step (s : ResolverState) (ev : ResolverEvent)
    (key : String) (h1 : (AList.get s.cache key).isSome = true)
    (h2 : fetchCount s key = 0) :
    (AList.get (resolverStep s ev).cache key).isSome = true ∧
      fetchCount (resolverStep s ev) key = 0 := by
  cases ev with
  | resolve k r =>
    refine ⟨?_, by simpa [resolverStep, fetchCount] using h2⟩
    by_cases hk : key = k
    · subst hk; simp [resolverStep, AList.get_set_self]
    · simpa [resolverStep, AList.get_set_ne _ _ _ _ hk] using h1
  | read k =>
    by_cases hks : k ∈ s.started
    · simpa [resolverStep, hks] using ⟨h1, h2⟩
    · simp only [resolverStep, if_neg hks]
      cases hc : AList.get s.cache k with
      | some v => exact ⟨h1, h2⟩
      | none =>
        have hkk : key ≠ k := by
          intro he; rw [he, hc] at h1; simp at h1
        exact ⟨h1, by
          simpa [fetchCount, List.count_cons_of_ne hkk] using h2⟩

/-- The already-populated invariant holds along any run. -/
theorem resolver_cached_run (s : ResolverState) (evs : List ResolverEvent)
    (key : String) (h1 : (AList.get s.cache key).isSome = true)
    (h2 : fetchCount s key = 0) :
    (AList.get (runResolver s evs).cache key).isSome = true ∧
      fetchCount (runResolver s evs) key = 0 := by
  induction evs generalizing s with
  | nil => exact ⟨h1, h2⟩
  | cons e t ih =>
    have step := resolver_cached_step s e key h1 h2
    exact ih (resolverStep s e) step.1 step.2

/-- Skipping, validating or passing an optional field succeeds exactly when
a present field is valid and the remaining checks succeed. -/
theorem checkOptional_ok {α : Type} (x : Option α) (valid : α → Bool)
    (msg : String) (rest : Except String Unit) :
    checkOptional x valid msg rest = .ok () ↔
      ((∀ v, x = some v → valid v = true) ∧ rest = .ok ()) := by
  cases x with
  | none => simp [checkOptional]
  | some v =>
    by_cases h : valid v
    · simp [checkOptional, h]
    · simp [checkOptional, h]

/-! ### Claim theorems -/

/-- C1: after a successful save — `saveSettings` resolving with a server
response, or `receiveSaveSettings` dispatched with one — the server
response replaces the local working copy for the saved keys, discarding
prior client edits, and `savedSettings` equals `settings` on every key of
the save payload. -/
theorem save_success_server_authoritative (s : SettingsState)
    (client response : SMap) (k : String) :
    (saveSettings (settingsReducer s (.setSettings client))
        (.ok response)).settings = some response ∧
    (saveSettings (settingsReducer s (.setSettings client))
        (.ok response)).savedSettings = some response ∧
    (settingsReducer s (.receiveSaveSettings response)).settings
      = some response ∧
    (settingsReducer s (.receiveSaveSettings response)).savedSettings
      = some response ∧
    AList.get ((saveSettings (settingsReducer s (.setSettings client))
        (.ok response)).settings.getD []) k
      = AList.get ((saveSettings (settingsReducer s (.setSettings client))
        (.ok response)).savedSettings.getD []) k :=
  ⟨rfl, rfl, rfl, rfl, rfl⟩

/-- C2: for every serialized key, the resolver machinery performs at most
one network fetch per store lifetime — repeated selector reads trigger no
additional fetch — a key whose value already exists in local state is never
fetched at all, and a first read of an absent key does initiate the (then
unique) fetch. -/
theorem resolver_fetch_at_most_once (cache0 : AList Report)
    (trace : List ResolverEvent) (key : String) :
    fetchCount (runResolver (initialResolverState cache0) trace) key ≤ 1 ∧
    ((AList.get cache0 key).isSome = true →
      fetchCount (runResolver (initialResolverState cache0) trace) key
        = 0) ∧
    (AList.get cache0 key = none →
      1 ≤ fetchCount (runResolver (initialResolverState cache0)
        (ResolverEvent.read key :: trace)) key) := by
  refine ⟨?_, ?_, ?_⟩
  · have h := resolver_bound_run (initialResolverState cache0) trace key
      (by simp [initialResolverState, fetchCount])
    exact le_trans h (by split <;> omega)
  · intro hc
    exact (resolver_cached_run _ trace key
      (by simpa [initialResolverState] using hc)
      (by simp [initialResolverState, fetchCount])).2
  · intro hc
    have h1 : fetchCount (resolverStep (initialResolverState cache0)
        (ResolverEvent.read key)) key = 1 := by
      simp [resolverStep, initialResolverState, hc, fetchCount]
    calc 1 = fetchCount (resolverStep (initialResolverState cache0)
          (ResolverEvent.read key)) key := h1.symm
      _ ≤ _ := fetchCount_run_mono _ trace key

/-- C2 witness: with no cached value, three reads of the same key cause at
most (and, after the first read, at least) one fetch; with a cached value,
no fetch at all. -/
theorem resolver_fetch_at_most_once_witness :
    fetchCount (runResolver (initialResolverState [])
      [ResolverEvent.read "k", ResolverEvent.read "k",
        ResolverEvent.read "k"]) "k" ≤ 1 ∧
    fetchCount (runResolver
      (initialResolverState [("k", [("setting1", JSVal.str "value")])])
      [ResolverEvent.read "k", ResolverEvent.read "k"]) "k" = 0 ∧
    1 ≤ fetchCount (runResolver (initialResolverState [])
      (ResolverEvent.read "k" :: [ResolverEvent.read "k"])) "k" :=
  ⟨(resolver_fetch_at_most_once []
      [ResolverEvent.read "k", ResolverEvent.read "k",
        ResolverEvent.read "k"] "k").1,
   (resolver_fetch_at_most_once [("k", [("setting1", JSVal.str "value")])]
      [ResolverEvent.read "k", ResolverEvent.read "k"] "k").2.1 (by decide),
   (resolver_fetch_at_most_once [] [ResolverEvent.read "k"] "k").2.2
      (by decide)⟩

/-- C3: dispatching `receiveGetSettings(server)` after
`setSettings(client)` leaves the working copy equal to
`\x7b ...server, ...client \x7d` — on every conflicting key the
already-modified client value wins over the fetched server value. -/
theorem receiveGet_client_precedence (client server : SMap) (k : String) :
    AList.get (((settingsReducer (settingsReducer initialSettingsState
        (.setSettings client)) (.receiveGetSettings server)).settings).getD
        []) k
      = (AList.get client k).or (AList.get server k) := by
  simp [settingsReducer, initialSettingsState, SMap.override,
    AList.get_append]

/-- C4: a network/server failure of a fetch operation is captured as data:
afterwards the error is readable via the generic lookup keyed by operation
name and arguments, and the data selector still returns `undefined` when no
local value exists. -/
theorem fetch_failure_captured_as_data (s : SettingsState)
    (argsKey : String) (e : ErrObj) (h : s.settings = none) :
    getErrorForAction (fetchGetSettingsOutcome s argsKey (.error e))
      "getSettings" argsKey = some e ∧
    getSettingsSel (fetchGetSettingsOutcome s argsKey (.error e)) = none ∧
    getErrorForAction (fetchSaveSettingsOutcome s argsKey (.error e))
      "saveSettings" argsKey = some e := by
  refine ⟨?_, ?_, ?_⟩
  · simp [getErrorForAction, fetchGetSettingsOutcome, AList.get_set_self]
  · simp [getSettingsSel, fetchGetSettingsOutcome, h]
  · simp [getErrorForAction, fetchSaveSettingsOutcome, AList.get_set_self]

/-- C4 witness: a concrete 500 error after a fetch from the fresh store is
readable via the error lookup while `getSettings` yields `undefined`. -/
theorem fetch_failure_captured_as_data_witness :
    getErrorForAction (fetchGetSettingsOutcome initialSettingsState "[]"
      (.error ⟨"internal_server_error", "Internal server error", 500⟩))
      "getSettings" "[]"
      = some ⟨"internal_server_error", "Internal server error", 500⟩ ∧
    getSettingsSel (fetchGetSettingsOutcome initialSettingsState "[]"
      (.error ⟨"internal_server_error", "Internal server error", 500⟩))
      = none ∧
    getErrorForAction (fetchSaveSettingsOutcome initialSettingsState "[]"
      (.error ⟨"internal_server_error", "Internal server error", 500⟩))
      "saveSettings" "[]"
      = some ⟨"internal_server_error", "Internal server error", 500⟩ :=
  fetch_failure_captured_as_data initialSettingsState "[]"
    ⟨"internal_server_error", "Internal server error", 500⟩ rfl

/-- C5: a failed `saveSettings` leaves the working copy (and the saved
copy) unchanged — every optimistic local edit survives, so the save can be
retried without re-entering data. -/
theorem saveSettings_failure_keeps_working_copy (s : SettingsState)
    (e : ErrObj) :
    (saveSettings s (.error e)).settings = s.settings ∧
    (saveSettings s (.error e)).savedSettings = s.savedSettings :=
  ⟨rfl, rfl⟩

/-- C6: `getReport` is a pure cache lookup keyed by the canonical
serialization of the options: deep-equal option objects (in any binding
order) read the same entry, an unfetched key reads `undefined`, and a
stored response is never evicted — a later successful fetch overwrites only
its own key. -/
theorem getReport_cache_semantics (reports : AList Report)
    (o₁ o₂ : AList JSVal) (r : Report) :
    (o₁.Perm o₂ → getReport reports o₁ = getReport reports o₂) ∧
    getReport initialReportState o₁ = none ∧
    getReport (receiveGetReportReducer reports r o₁) o₁ = some r ∧
    (stringifyObject o₂ ≠ stringifyObject o₁ →
      getReport (receiveGetReportReducer reports r o₁) o₂
        = getReport reports o₂) := by
  refine ⟨?_, rfl, ?_, ?_⟩
  · intro h
    unfold getReport
    rw [stringifyObject_perm o₁ o₂ h]
  · exact AList.get_set_self _ _ _
  · intro h
    exact AList.get_set_ne _ _ _ _ h

/-- C6 witness: two binding orders of the same options read one entry of
the fresh cache; an unfetched key reads `undefined`; a stored response is
read back and does not disturb a different key. -/
theorem getReport_cache_semantics_witness :
    getReport [] [("dateRange", JSVal.str "last-28-days"),
        ("url", JSVal.str "x")]
      = getReport [] [("url", JSVal.str "x"),
        ("dateRange", JSVal.str "last-28-days")] ∧
    getReport initialReportState [("dateRange", JSVal.str "last-28-days"),
        ("url", JSVal.str "x")] = none ∧
    getReport (receiveGetReportReducer [] [("rows", JSVal.num 5)]
        [("dateRange", JSVal.str "last-28-days"), ("url", JSVal.str "x")])
      [("dateRange", JSVal.str "last-28-days"), ("url", JSVal.str "x")]
      = some [("rows", JSVal.num 5)] ∧
    getReport (receiveGetReportReducer [] [("rows", JSVal.num 5)]
        [("dateRange", JSVal.str "last-28-days"), ("url", JSVal.str "x")])
      [("dateRange", JSVal.str "last-7-days")]
      = getReport [] [("dateRange", JSVal.str "last-7-days")] :=
  ⟨(getReport_cache_semantics []
      [("dateRange", JSVal.str "last-28-days"), ("url", JSVal.str "x")]
      [("url", JSVal.str "x"), ("dateRange", JSVal.str "last-28-days")]
      []).1 (by decide),
   (getReport_cache_semantics []
      [("dateRange", JSVal.str "last-28-days"), ("url", JSVal.str "x")]
      [] []).2.1,
   (getReport_cache_semantics []
      [("dateRange", JSVal.str "last-28-days"), ("url", JSVal.str "x")]
      [] [("rows", JSVal.num 5)]).2.2.1,
   (getReport_cache_semantics []
      [("dateRange", JSVal.str "last-28-days"), ("url", JSVal.str "x")]
      [("dateRange", JSVal.str "last-7-days")]
      [("rows", JSVal.num 5)]).2.2.2 (by decide)⟩

/-- C7: `setSettings(values)` merges `values` into the working copy — a
subsequent read returns the merged superset with the new values winning —
while a missing/null `values` argument fails fast synchronously, before any
action is dispatched. -/
theorem setSettings_merge_and_failfast (s : SettingsState) (values : SMap)
    (k : String) :
    setSettingsCreator none = .error "values is required." ∧
    setSettingsCreator (some values) = .ok (.setSettings values) ∧
    AList.get ((settingsReducer s (.setSettings values)).settings.getD [])
        k
      = (AList.get values k).or (AList.get (s.settings.getD []) k) := by
  refine ⟨rfl, rfl, ?_⟩
  simp [settingsReducer, SMap.override, AList.get_append]

/-- C8: after any sequence of edits (`setSettings` and per-field setters)
following the last `receiveGetSettings`/`receiveSaveSettings`, dispatching
`rollbackSettings` restores the working copy exactly to that last saved
snapshot. -/
theorem rollback_restores_saved_snapshot (s : SettingsState)
    (response : SMap) (edits : List SettingsAction)
    (h : ∀ a ∈ edits, a.isEdit = true) (recv : SettingsAction)
    (hrecv : recv = SettingsAction.receiveGetSettings response ∨
      recv = SettingsAction.receiveSaveSettings response) :
    (settingsReducer (applyActions (settingsReducer s recv) edits)
      SettingsAction.rollbackSettings).settings = some response := by
  have hsaved : (applyActions (settingsReducer s recv) edits).savedSettings
      = (settingsReducer s recv).savedSettings :=
    savedSettings_applyActions _ edits h
  have hrecvsaved : (settingsReducer s recv).savedSettings = some response := by
    rcases hrecv with h' | h' <;> subst h' <;> rfl
  have hroll : (settingsReducer (applyActions (settingsReducer s recv)
        edits) SettingsAction.rollbackSettings).settings
      = (applyActions (settingsReducer s recv) edits).savedSettings := rfl
  rw [hroll, hsaved, hrecvsaved]

/-- C8 witness: a saved value edited via the generated setter is restored
by rollback, matching the behaviour pinned by the test suite. -/
theorem rollback_restores_saved_snapshot_witness :
    (settingsReducer (applyActions (settingsReducer initialSettingsState
        (SettingsAction.receiveSaveSettings
          [("isSkyBlue", JSVal.str "yes")]))
        [SettingsAction.setSetting "isSkyBlue" (JSVal.str "maybe")])
      SettingsAction.rollbackSettings).settings
      = some [("isSkyBlue", JSVal.str "yes")] :=
  rollback_restores_saved_snapshot initialSettingsState
    [("isSkyBlue", JSVal.str "yes")]
    [SettingsAction.setSetting "isSkyBlue" (JSVal.str "maybe")]
    (by decide) _ (Or.inr rfl)

/-- C9: for every configured setting slug, the generated setter fails
synchronously on `undefined` and succeeds on every defined value —
including explicitly falsy ones — after which the matching generated getter
returns exactly that value. -/
theorem generated_setter_getter (s : SettingsState) (slug : String)
    (v : JSVal) :
    setSettingCreator slug none
      = .error ("value is required for calls to set"
          ++ slug.capitalize ++ "().") ∧
    setSettingCreator slug (some v) = .ok (.setSetting slug v) ∧
    getSetting (settingsReducer s (.setSetting slug v)) slug = some v := by
  refine ⟨rfl, rfl, ?_⟩
  simp [getSetting, settingsReducer, SMap.override, AList.get_append,
    AList.get]

/-- C10: the Analytics report fetch rejects — synchronously, with no state
change and no network request — exactly the option sets that are not a
plain object, lack a valid date range, normalize to an empty metrics list,
or carry invalid metrics/dimensions/dimension filters/orderby; options
meeting all preconditions pass validation. -/
theorem validateParams_invariant_guard {Opts M D F O : Type}
    (V : ReportValidators Opts M D F O) (reports : AList Report)
    (options : Option Opts) :
    (validateParams V options = .ok () ↔
      ∃ o, options = some o ∧ V.isValidDateRange o = true ∧
        (V.normalizeReportOptions o).metrics ≠ [] ∧
        V.isValidMetrics (V.normalizeReportOptions o).metrics = true ∧
        (∀ d, (V.normalizeReportOptions o).dimensions = some d →
          V.isValidDimensions d = true) ∧
        (∀ f, (V.normalizeReportOptions o).dimensionFilters = some f →
          V.isValidDimensionFilters f = true) ∧
        (∀ ob, (V.normalizeReportOptions o).orderby = some ob →
          V.isValidOrders ob = true)) ∧
    (∀ msg, validateParams V options = .error msg →
      fetchGetReportAction V reports options = (reports, none, some msg)) := by
  constructor
  · constructor
    · intro h
      cases options with
      | none => simp [validateParams] at h
      | some o =>
        by_cases hdr : V.isValidDateRange o
        case neg => simp [validateParams, hdr] at h
        by_cases hm : (V.normalizeReportOptions o).metrics.length = 0
        case pos => simp [validateParams, hdr, hm] at h
        by_cases hvm :
            V.isValidMetrics (V.normalizeReportOptions o).metrics
        case neg => simp [validateParams, hdr, hm, hvm] at h
        have h' := h
        simp only [validateParams, hdr, hm, hvm, not_true, not_false_iff,
          if_neg, if_pos, ite_true, ite_false, Bool.not_eq_true] at h'
        rw [checkOptional_ok] at h'
        obtain ⟨hd, h''⟩ := h'
        rw [checkOptional_ok] at h''
        obtain ⟨hf, h'''⟩ := h''
        rw [checkOptional_ok] at h'''
        obtain ⟨ho, _⟩ := h'''
        exact ⟨o, rfl, hdr, by simpa [List.length_eq_zero] using hm,
          hvm, hd, hf, ho⟩
    · rintro ⟨o, rfl, hdr, hm, hvm, hd, hf, ho⟩
      have hm0 : ¬ (V.normalizeReportOptions o).metrics.length = 0 := by
        simpa [List.length_eq_zero] using hm
      simp only [validateParams, hdr, hm0, hvm, not_true, not_false_iff,
        if_pos, if_neg, ite_true, ite_false, checkOptional_ok,
        Bool.not_eq_true, if_false]
      exact ⟨hd, hf, ho, trivial⟩
  · intro msg h
    simp [fetchGetReportAction, h]

/-- C10 witness: a valid concrete request passes validation; a non-object
`options` argument is rejected with the invariant message, issuing no
request and leaving the report cache untouched. -/
theorem validateParams_invariant_guard_witness :
    validateParams sampleValidators (some "opts") = .ok () ∧
    fetchGetReportAction sampleValidators ([] : AList Report)
        (none : Option String)
      = ([], none, some "Options for Analytics report must be an object.") :=
  ⟨(validateParams_invariant_guard sampleValidators [] (some "opts")).1.mpr
      ⟨"opts", rfl, rfl, by decide, rfl, by simp [sampleValidators],
        by simp [sampleValidators], by simp [sampleValidators]⟩,
   (validateParams_invariant_guard sampleValidators [] none).2 _ rfl⟩

end SiteKit
